import Mathlib

/-!
# SoA chunk runtime: GenerateTask, ChunkStates, ChunkGridData, ChunkSlot

A shallow embedding of `src/SoA/GenerateTask.cpp` and of the chunk records of
`src/SoA/Chunk.h`, with the properties of the specification proved over it.

Conventions of the embedding:
* a C++ object reached through a pointer or reference that the code dereferences
  unconditionally (`query`, `query->chunk`, `chunk.gridData`, `chunkGenerator`) is a
  field of the state record;
* a nullable pointer that is stored and compared (`ChunkSlot*`, `Chunk*`) is an
  `Option` of the key of the object it designates;
* `double` values are elements of an abstract type `D`: the embedded code only
  stores and copies them;
* collaborators whose bodies are outside the sources (the procedural generator,
  `ChunkGenerator::finishQuery`, `ChunkSlot::getDistance2`) are parameters.
-/

namespace SoA

/-! ## ChunkGenLevel and the records GenerateTask::execute works on -/

/-- Modelled from the spec: the declaration of `ChunkGenLevel` is outside the sources.
The four named enumerators are the ones the switch of `GenerateTask::execute` and the
spec name (`GEN_TERRAIN | GEN_FLORA | GEN_SCRIPT | GEN_DONE`); `GEN_OTHER n` stands for
any further enumerator the declaration may hold: the switch has no `default` label, so
such a value runs none of its cases. -/
inductive ChunkGenLevel where
  | GEN_TERRAIN
  | GEN_FLORA
  | GEN_SCRIPT
  | GEN_DONE
  | GEN_OTHER (n : Nat)
  deriving DecidableEq, Repr

/-- The grid data `chunk.gridData` points to, as far as `GenerateTask::execute` reads
it: the `isLoading` flag. -/
structure GridData where
  isLoading : Bool
  deriving DecidableEq, Repr

/-- The fields of `Chunk` that the embedded code reads or writes: `genLevel`,
`isAccessible` and `gridData` (GenerateTask.cpp), `distance2` (Chunk.h, written by
`ChunkSlot::calculateDistance2`). `voxels` stands for the voxel containers the external
generator fills. -/
structure Chunk (D V : Type) where
  genLevel : ChunkGenLevel
  isAccessible : Bool
  gridData : GridData
  distance2 : D
  voxels : V
  deriving DecidableEq

/-- A chunk query: the chunk it owns (`query->chunk`), the requested `genLevel`, the
`m_isFinished` flag, and `m_cond` as the number of `notify_one` calls it has received. -/
structure ChunkQuery (D V : Type) where
  chunk : Chunk D V
  genLevel : ChunkGenLevel
  m_isFinished : Bool
  m_cond : Nat
  deriving DecidableEq

/-- Calls that leave `GenerateTask::execute` towards the chunk generator. -/
inductive ExternalCall where
  | generateHeightmap
  | generateChunk
  | finishQuery
  deriving DecidableEq, Repr

/-- The collaborators of `GenerateTask::execute`, whose bodies are outside the sources.
`generateHeightmap` and `generateChunk` receive `&chunk` and the `heightData` pointer,
so they may rewrite the whole chunk record, the height data and the generator's own
state `G`. `finishQuery` is a member of the chunk generator taking the query: it hands
the query to the generator's completion path, changing the generator's state only. -/
structure Collaborators (D V H G : Type) where
  generateHeightmap : G → Chunk D V → H → G × Chunk D V × H
  generateChunk : G → Chunk D V → H → G × Chunk D V × H
  finishQuery : G → ChunkQuery D V → G

/-- A `GenerateTask` with everything it reaches: the query (and its chunk), the
`heightData` buffer, the state of `chunkGenerator`, and the log of external calls. -/
structure GenerateTask (D V H G : Type) where
  query : ChunkQuery D V
  heightData : H
  chunkGenerator : G
  calls : List ExternalCall

section GenerateTaskOps

variable {D V H G : Type}

/-- Source line 12:
`chunkGenerator->m_proceduralGenerator.generateHeightmap(&chunk, heightData);` -/
def callGenerateHeightmap (X : Collaborators D V H G) (t : GenerateTask D V H G) :
    GenerateTask D V H G :=
  let r := X.generateHeightmap t.chunkGenerator t.query.chunk t.heightData
  { query := { t.query with chunk := r.2.1 }
    heightData := r.2.2
    chunkGenerator := r.1
    calls := t.calls ++ [ExternalCall.generateHeightmap] }

/-- Source line 18:
`chunkGenerator->m_proceduralGenerator.generateChunk(&chunk, heightData);` -/
def callGenerateChunk (X : Collaborators D V H G) (t : GenerateTask D V H G) :
    GenerateTask D V H G :=
  let r := X.generateChunk t.chunkGenerator t.query.chunk t.heightData
  { query := { t.query with chunk := r.2.1 }
    heightData := r.2.2
    chunkGenerator := r.1
    calls := t.calls ++ [ExternalCall.generateChunk] }

/-- Source lines 19, 22, 25: `chunk.genLevel = ChunkGenLevel::GEN_DONE;` -/
def setGenLevelDone (t : GenerateTask D V H G) : GenerateTask D V H G :=
  { t with query := { t.query with
      chunk := { t.query.chunk with genLevel := ChunkGenLevel.GEN_DONE } } }

/-- Source line 28: `query->m_isFinished = true;` -/
def setFinished (t : GenerateTask D V H G) : GenerateTask D V H G :=
  { t with query := { t.query with m_isFinished := true } }

/-- Source line 29: `query->m_cond.notify_one();` -/
def notifyOne (t : GenerateTask D V H G) : GenerateTask D V H G :=
  { t with query := { t.query with m_cond := t.query.m_cond + 1 } }

/-- Source line 31: `chunk.isAccessible = true;` -/
def setAccessible (t : GenerateTask D V H G) : GenerateTask D V H G :=
  { t with query := { t.query with
      chunk := { t.query.chunk with isAccessible := true } } }

/-- Source line 33: `chunkGenerator->finishQuery(query);` -/
def callFinishQuery (X : Collaborators D V H G) (t : GenerateTask D V H G) :
    GenerateTask D V H G :=
  { t with
    chunkGenerator := X.finishQuery t.chunkGenerator t.query
    calls := t.calls ++ [ExternalCall.finishQuery] }

/-- The function `GenerateTask::execute`, statement by statement (GenerateTask.cpp,
lines 7-34). The switch reads `query->genLevel` before any case body runs. -/
def execute (X : Collaborators D V H G) (t : GenerateTask D V H G) :
    GenerateTask D V H G :=
  let t1 :=
    if t.query.chunk.gridData.isLoading then
      callGenerateHeightmap X t
    else
      let t2 :=
        match t.query.genLevel with
        | ChunkGenLevel.GEN_DONE => setGenLevelDone (callGenerateChunk X t)
        | ChunkGenLevel.GEN_TERRAIN => setGenLevelDone (callGenerateChunk X t)
        | ChunkGenLevel.GEN_FLORA => setGenLevelDone t
        | ChunkGenLevel.GEN_SCRIPT => setGenLevelDone t
        | ChunkGenLevel.GEN_OTHER _ => t
      setAccessible (notifyOne (setFinished t2))
  callFinishQuery X t1

/-- The statements of `GenerateTask::execute`, one constructor per statement kind. -/
inductive Step where
  | callGenerateHeightmap
  | callGenerateChunk
  | setGenLevelDone
  | setFinished
  | notifyOne
  | setAccessible
  | callFinishQuery
  deriving DecidableEq, Repr

/-- Effect of one statement on the task state. -/
def Step.apply (X : Collaborators D V H G) : Step → GenerateTask D V H G →
    GenerateTask D V H G
  | Step.callGenerateHeightmap, t => SoA.callGenerateHeightmap X t
  | Step.callGenerateChunk, t => SoA.callGenerateChunk X t
  | Step.setGenLevelDone, t => SoA.setGenLevelDone t
  | Step.setFinished, t => SoA.setFinished t
  | Step.notifyOne, t => SoA.notifyOne t
  | Step.setAccessible, t => SoA.setAccessible t
  | Step.callFinishQuery, t => SoA.callFinishQuery X t

/-- The statements of the switch at source lines 15-27, for a requested level. -/
def switchSteps : ChunkGenLevel → List Step
  | ChunkGenLevel.GEN_DONE => [Step.callGenerateChunk, Step.setGenLevelDone]
  | ChunkGenLevel.GEN_TERRAIN => [Step.callGenerateChunk, Step.setGenLevelDone]
  | ChunkGenLevel.GEN_FLORA => [Step.setGenLevelDone]
  | ChunkGenLevel.GEN_SCRIPT => [Step.setGenLevelDone]
  | ChunkGenLevel.GEN_OTHER _ => []

/-- The statements `GenerateTask::execute` runs from the state `t`, in program order:
the branch on `chunk.gridData->isLoading` and the switch on `query->genLevel` are both
decided before any statement of the chosen path runs. -/
def executeSteps (t : GenerateTask D V H G) : List Step :=
  if t.query.chunk.gridData.isLoading then
    [Step.callGenerateHeightmap, Step.callFinishQuery]
  else
    switchSteps t.query.genLevel ++
      [Step.setFinished, Step.notifyOne, Step.setAccessible, Step.callFinishQuery]

/-- Run a list of statements from a state. -/
def runSteps (X : Collaborators D V H G) (l : List Step) (t : GenerateTask D V H G) :
    GenerateTask D V H G :=
  l.foldl (fun st a => a.apply X st) t

/-- Every state the task passes through while the statements `l` run: the state
before the first statement and the state after each statement. -/
def statesAlong (X : Collaborators D V H G) : List Step → GenerateTask D V H G →
    List (GenerateTask D V H G)
  | [], t => [t]
  | a :: l, t => t :: statesAlong X l (a.apply X t)

/-- The states `GenerateTask::execute` passes through from `t`. -/
def executeTrace (X : Collaborators D V H G) (t : GenerateTask D V H G) :
    List (GenerateTask D V H G) :=
  statesAlong X (executeSteps t) t

/-- The statements that run strictly before the first occurrence of `a` in `l`. -/
def stepsBefore (a : Step) (l : List Step) : List Step :=
  l.takeWhile (fun b => decide (b ≠ a))

/-- The statements that run strictly after the first occurrence of `a` in `l`. -/
def stepsAfter (a : Step) (l : List Step) : List Step :=
  (l.dropWhile (fun b => decide (b ≠ a))).tail

/-- Reading of the sentence "the chunk is marked accessible only when generateChunk has
been invoked on that chunk earlier in the same execution": if the statement
`chunk.isAccessible = true` runs, a call of `generateChunk` runs before it. -/
def AccessibleOnlyAfterGenerateChunk (t : GenerateTask D V H G) : Prop :=
  Step.setAccessible ∈ executeSteps t →
    Step.callGenerateChunk ∈ stepsBefore Step.setAccessible (executeSteps t)

/-- Reading of the sentence "at no point in the step sequence is the query finished
while the chunk is not yet marked accessible". -/
def FinishedOnlyWhenAccessible (X : Collaborators D V H G) (t : GenerateTask D V H G) :
    Prop :=
  ∀ st ∈ executeTrace X t, st.query.m_isFinished = true → st.query.chunk.isAccessible = true

end GenerateTaskOps

/-- Collaborators that leave everything as it is: a generator that writes nothing and
a `finishQuery` that keeps the generator state. -/
def idleCollaborators : Collaborators Unit Unit Unit Unit where
  generateHeightmap := fun g c h => (g, c, h)
  generateChunk := fun g c h => (g, c, h)
  finishQuery := fun g _ => g

/-- A task on a chunk that is not accessible yet, with an unfinished query requesting
`level`, and grid data loading or not. -/
def sampleTask (level : ChunkGenLevel) (loading : Bool) : GenerateTask Unit Unit Unit Unit where
  query :=
    { chunk :=
        { genLevel := ChunkGenLevel.GEN_OTHER 0
          isAccessible := false
          gridData := { isLoading := loading }
          distance2 := ()
          voxels := () }
      genLevel := level
      m_isFinished := false
      m_cond := 0 }
  heightData := ()
  chunkGenerator := ()
  calls := []

/-- The enumeration of Chunk.h line 35:
`enum class ChunkStates { LOAD, GENERATE, SAVE, LIGHT, TREES, MESH, WATERMESH, DRAW,
INACTIVE }; //more priority is lower`. -/
inductive ChunkStates where
  | LOAD
  | GENERATE
  | SAVE
  | LIGHT
  | TREES
  | MESH
  | WATERMESH
  | DRAW
  | INACTIVE
  deriving DecidableEq, Repr

/-- The value of an enumerator: no enumerator has an initialiser, so the values are
0, 1, 2, ... in the order of declaration. -/
def ChunkStates.toNat : ChunkStates → Nat
  | ChunkStates.LOAD => 0
  | ChunkStates.GENERATE => 1
  | ChunkStates.SAVE => 2
  | ChunkStates.LIGHT => 3
  | ChunkStates.TREES => 4
  | ChunkStates.MESH => 5
  | ChunkStates.WATERMESH => 6
  | ChunkStates.DRAW => 7
  | ChunkStates.INACTIVE => 8

/-- The comparison `a < b` of two states is the comparison of their enumerator values. -/
instance : LT ChunkStates := ⟨fun a b => a.toNat < b.toNat⟩

/-- The comparison `a <= b` of two states is the comparison of their enumerator values. -/
instance : LE ChunkStates := ⟨fun a b => a.toNat ≤ b.toNat⟩

instance (a b : ChunkStates) : Decidable (a < b) :=
  inferInstanceAs (Decidable (a.toNat < b.toNat))

instance (a b : ChunkStates) : Decidable (a ≤ b) :=
  inferInstanceAs (Decidable (a.toNat ≤ b.toNat))

/-- Every enumerator of `ChunkStates`, in declaration order. -/
def ChunkStates.all : List ChunkStates :=
  [ChunkStates.LOAD, ChunkStates.GENERATE, ChunkStates.SAVE, ChunkStates.LIGHT,
   ChunkStates.TREES, ChunkStates.MESH, ChunkStates.WATERMESH, ChunkStates.DRAW,
   ChunkStates.INACTIVE]

/-- The priority chain in the words of the specification:
`LOAD → GENERATE → SAVE → LIGHT → TREES → MESH → WATERMESH → DRAW`, states earlier in
the chain being serviced first. -/
def specPriorityChain : List ChunkStates :=
  [ChunkStates.LOAD, ChunkStates.GENERATE, ChunkStates.SAVE, ChunkStates.LIGHT,
   ChunkStates.TREES, ChunkStates.MESH, ChunkStates.WATERMESH, ChunkStates.DRAW]

/-! ## ChunkGridData -/

/-- An element of `ChunkGridData::heightData`. The declaration of `HeightData` is
outside the sources; `height` is the member the constructor of `ChunkGridData` writes. -/
structure HeightData where
  height : Int
  deriving DecidableEq, Repr

/-- The class `ChunkGridData` of Chunk.h, lines 40-52. `voxelMapData` is a pointer
(the key of the object it designates, if any), `heightData` the array of `CHUNK_LAYER`
elements. -/
structure ChunkGridData where
  voxelMapData : Option Nat
  heightData : List HeightData
  refCount : Int
  deriving DecidableEq, Repr

/-- The constructor `ChunkGridData(vvoxel::VoxelMapData* VoxelMapData)`, Chunk.h lines
42-45. `UNLOADED_HEIGHT` is a constant declared outside the sources; `storage` is the
content of the `CHUNK_LAYER` elements of `heightData` before the body runs, which
the constructor does not choose. The body writes element 0 only. -/
def ChunkGridData.construct (UNLOADED_HEIGHT : Int) (storage : List HeightData)
    (VoxelMapData : Option Nat) : ChunkGridData where
  voxelMapData := VoxelMapData
  refCount := 1
  heightData := storage.modifyHead (fun h => { h with height := UNLOADED_HEIGHT })

/-! ## ChunkSlot -/

/-- The vector type `i32v3` (`glm::ivec3`): three integer coordinates. -/
@[ext]
structure i32v3 where
  x : Int
  y : Int
  z : Int
  deriving DecidableEq, Repr

/-- Componentwise sum of two vectors. -/
instance : Add i32v3 := ⟨fun a b => ⟨a.x + b.x, a.y + b.y, a.z + b.z⟩⟩

/-- The class `ChunkSlot` of Chunk.h, lines 236-282. A `ChunkSlot*` is the key of the
slot it designates in the slot map, a `Chunk*` or `ChunkGridData*` the key of the
object in its store; `none` is `nullptr`. -/
structure ChunkSlot (D : Type) where
  chunk : Option Nat
  position : i32v3
  numNeighbors : Int
  left : Option i32v3
  right : Option i32v3
  back : Option i32v3
  front : Option i32v3
  top : Option i32v3
  bottom : Option i32v3
  distance2 : D
  chunkGridData : Option Nat
  inFrustum : Bool
  deriving DecidableEq

/-- The constructor `ChunkSlot(pos, ch, cgd)`, Chunk.h lines 242-254; `one` is the
`double` value of the literal `1.0f`. -/
def ChunkSlot.construct {D : Type} (one : D) (pos : i32v3) (ch : Option Nat)
    (cgd : Option Nat) : ChunkSlot D where
  chunk := ch
  position := pos
  chunkGridData := cgd
  left := none
  right := none
  back := none
  front := none
  bottom := none
  top := none
  numNeighbors := 0
  inFrustum := false
  distance2 := one

/-- The store of chunks a `Chunk*` points into. -/
abbrev ChunkStore (D V : Type) := Nat → Option (Chunk D V)

/-- The member `ChunkSlot::calculateDistance2`, Chunk.h lines 256-259:
`distance2 = getDistance2(position, cameraPos); chunk->distance2 = distance2;`.
`getDistance2` is declared in Chunk.h and defined outside the sources. The result is
the slot and the chunk store after the call, or `none` when `chunk` does not point to
a chunk (the write through `chunk` then has no defined behaviour). -/
def ChunkSlot.calculateDistance2 {D V : Type} (getDistance2 : i32v3 → i32v3 → D)
    (chunks : ChunkStore D V) (slot : ChunkSlot D) (cameraPos : i32v3) :
    Option (ChunkSlot D × ChunkStore D V) :=
  let slot1 := { slot with distance2 := getDistance2 slot.position cameraPos }
  match slot1.chunk with
  | none => none
  | some c =>
    match chunks c with
    | none => none
    | some ch =>
      some (slot1, Function.update chunks c (some { ch with distance2 := slot1.distance2 }))

/-- A chunk store holding one chunk, at key 7. -/
def sampleChunkStore : ChunkStore Int Unit := fun k =>
  if k = 7 then
    some { genLevel := ChunkGenLevel.GEN_DONE, isAccessible := true,
           gridData := { isLoading := false }, distance2 := 0, voxels := () }
  else none

/-- A slot at (32, 0, -64) whose chunk is the one of `sampleChunkStore`, linked to a
left neighbour. -/
def sampleSlot : ChunkSlot Int :=
  { ChunkSlot.construct 1 ⟨32, 0, -64⟩ (some 7) (some 3) with
    left := some ⟨0, 0, -64⟩, numNeighbors := 1 }

/-- A stand-in for `getDistance2`: the squared euclidean distance of the two points. -/
def sampleDistance2 (p c : i32v3) : Int :=
  (p.x - c.x) * (p.x - c.x) + (p.y - c.y) * (p.y - c.y) + (p.z - c.z) * (p.z - c.z)

/-! ## The slot map and the neighbour links

`ChunkSlot::detectNeighbors` and `ChunkSlot::clearNeighbors` are declared in Chunk.h
(lines 261-263) and defined outside the sources. They are modelled from section 4.3 of
the specification. -/

/-- The six faces of a slot, one per link field of `ChunkSlot`. -/
inductive Face where
  | left
  | right
  | back
  | front
  | bottom
  | top
  deriving DecidableEq, Repr

/-- The face across: left/right, back/front, bottom/top. -/
def Face.opposite : Face → Face
  | Face.left => Face.right
  | Face.right => Face.left
  | Face.back => Face.front
  | Face.front => Face.back
  | Face.bottom => Face.top
  | Face.top => Face.bottom

/-- The six faces, in the order of the link fields in the constructor of `ChunkSlot`. -/
def Face.all : List Face :=
  [Face.left, Face.right, Face.back, Face.front, Face.bottom, Face.top]

/-- Modelled from the spec: the grid offset of the face-neighbour across each face
("its six face-neighbors", section 4.3); the bodies that fix the axis of each link name
are outside the sources. Left/right step along x, bottom/top along y, back/front
along z. -/
def Face.offset : Face → i32v3
  | Face.left => ⟨-1, 0, 0⟩
  | Face.right => ⟨1, 0, 0⟩
  | Face.back => ⟨0, 0, -1⟩
  | Face.front => ⟨0, 0, 1⟩
  | Face.bottom => ⟨0, -1, 0⟩
  | Face.top => ⟨0, 1, 0⟩

/-- The link field of a slot for a face. -/
def ChunkSlot.link {D : Type} (s : ChunkSlot D) : Face → Option i32v3
  | Face.left => s.left
  | Face.right => s.right
  | Face.back => s.back
  | Face.front => s.front
  | Face.bottom => s.bottom
  | Face.top => s.top

/-- Assignment to the link field of a slot for a face. -/
def ChunkSlot.setLink {D : Type} (s : ChunkSlot D) (f : Face) (v : Option i32v3) :
    ChunkSlot D :=
  match f with
  | Face.left => { s with left := v }
  | Face.right => { s with right := v }
  | Face.back => { s with back := v }
  | Face.front => { s with front := v }
  | Face.bottom => { s with bottom := v }
  | Face.top => { s with top := v }

/-- The number of non-null neighbour links of a slot, among `left`, `right`, `back`,
`front`, `bottom` and `top`. -/
def ChunkSlot.linkCount {D : Type} (s : ChunkSlot D) : Nat :=
  (Face.all.filter (fun f => (s.link f).isSome)).length

/-- The slot map `std::unordered_map<i32v3, ChunkSlot*>` together with the slots it
points to: the slot stored under each grid position, if any. -/
abbrev ChunkSlotMap (D : Type) := i32v3 → Option (ChunkSlot D)

/-- The slot map with no slot. -/
def ChunkSlotMap.empty (D : Type) : ChunkSlotMap D := fun _ => none

/-- Modelled from the spec: one face of `detectNeighbors`. "Resolves pointers to any of
its six face-neighbors already present in the grid (O(1) hashed lookup by grid
position), and updates those neighbors' reciprocal pointers to point back": if the slot
at `pos` and the slot across face `f` are both in the map, each is linked to the
other. -/
def linkFace {D : Type} (pos : i32v3) (chunkSlotMap : ChunkSlotMap D) (f : Face) :
    ChunkSlotMap D :=
  match chunkSlotMap pos, chunkSlotMap (pos + f.offset) with
  | some s, some n =>
    Function.update
      (Function.update chunkSlotMap pos (some (s.setLink f (some (pos + f.offset)))))
      (pos + f.offset) (some (n.setLink f.opposite (some pos)))
  | _, _ => chunkSlotMap

/-- Modelled from the spec: `ChunkSlot::detectNeighbors(chunkSlotMap)` for the slot
stored at `pos`; the body is outside the sources. The six faces are resolved in turn. -/
def ChunkSlot.detectNeighbors {D : Type} (pos : i32v3) (chunkSlotMap : ChunkSlotMap D) :
    ChunkSlotMap D :=
  Face.all.foldl (linkFace pos) chunkSlotMap

/-- Modelled from the spec: one face of `clearNeighbors`. "Nulls out reciprocal pointers
on all present neighbors": the neighbour the slot at `pos` is linked to across `f`, if
there is one, has its link back set to null. -/
def unlinkFace {D : Type} (pos : i32v3) (chunkSlotMap : ChunkSlotMap D) (f : Face) :
    ChunkSlotMap D :=
  match chunkSlotMap pos with
  | none => chunkSlotMap
  | some s =>
    match s.link f with
    | none => chunkSlotMap
    | some q =>
      match chunkSlotMap q with
      | none => chunkSlotMap
      | some n => Function.update chunkSlotMap q (some (n.setLink f.opposite none))

/-- Modelled from the spec: `ChunkSlot::clearNeighbors()` for the slot stored at `pos`;
the body is outside the sources. It takes no map argument: the neighbours are reached
through the slot's own links. -/
def ChunkSlot.clearNeighbors {D : Type} (pos : i32v3) (chunkSlotMap : ChunkSlotMap D) :
    ChunkSlotMap D :=
  Face.all.foldl (unlinkFace pos) chunkSlotMap

/-- Modelled from the spec: `insert(position) -> slot`, "creates a slot and resolves
pointers to any of its six face-neighbors already present in the grid": construction of
the slot (the constructor of Chunk.h), its entry in the map, then `detectNeighbors`. -/
def ChunkSlotMap.insert {D : Type} (one : D) (pos : i32v3) (ch cgd : Option Nat)
    (chunkSlotMap : ChunkSlotMap D) : ChunkSlotMap D :=
  ChunkSlot.detectNeighbors pos
    (Function.update chunkSlotMap pos (some (ChunkSlot.construct one pos ch cgd)))

/-- Modelled from the spec: `remove(position)`, "nulls out reciprocal pointers on all
present neighbors before destroying the slot": `clearNeighbors`, then the slot leaves
the map. -/
def ChunkSlotMap.remove {D : Type} (pos : i32v3) (chunkSlotMap : ChunkSlotMap D) :
    ChunkSlotMap D :=
  Function.update (ChunkSlot.clearNeighbors pos chunkSlotMap) pos none

/-- An operation on the slot map. -/
inductive SlotOp where
  | insert (pos : i32v3) (ch cgd : Option Nat)
  | remove (pos : i32v3)
  deriving DecidableEq, Repr

/-- Effect of an operation on the slot map. -/
def SlotOp.apply {D : Type} (one : D) : SlotOp → ChunkSlotMap D → ChunkSlotMap D
  | SlotOp.insert pos ch cgd, m => ChunkSlotMap.insert one pos ch cgd m
  | SlotOp.remove pos, m => ChunkSlotMap.remove pos m

/-- Effect of a sequence of operations, first to last. -/
def applyOps {D : Type} (one : D) (ops : List SlotOp) (m : ChunkSlotMap D) :
    ChunkSlotMap D :=
  ops.foldl (fun acc op => op.apply one acc) m

/-- The neighbour relation: the slot at `a` is in the map and its link across `f` is
the slot at `b`. -/
def HasNeighbor {D : Type} (m : ChunkSlotMap D) (a : i32v3) (f : Face) (b : i32v3) :
    Prop :=
  ∃ s, m a = some s ∧ s.link f = some b

/-- Symmetry of the neighbour relation: A has B as its neighbour across a face exactly
when B has A as its neighbour across the opposite face. -/
def NeighborSymmetric {D : Type} (m : ChunkSlotMap D) : Prop :=
  ∀ a f b, HasNeighbor m a f b ↔ HasNeighbor m b f.opposite a

/-- Every link of a slot points to the grid position across the face of the link. -/
def LinksAdjacent {D : Type} (m : ChunkSlotMap D) : Prop :=
  ∀ a f b, HasNeighbor m a f b → b = a + f.offset

/-- The invariant of the slot map between operations: links point to the adjacent grid
position and every link is answered by the link back. -/
def SlotInv {D : Type} (m : ChunkSlotMap D) : Prop :=
  LinksAdjacent m ∧ ∀ a f b, HasNeighbor m a f b → HasNeighbor m b f.opposite a

/-- The invariant inside `detectNeighbors` for the slot at `pos`: the slot is in the
map, links towards other slots are answered, and a link towards `pos` is answered
unless the face of `pos` it comes through is still to be resolved (`pend`). -/
def InsertInv {D : Type} (pos : i32v3) (pend : List Face) (m : ChunkSlotMap D) : Prop :=
  LinksAdjacent m ∧ (m pos).isSome = true ∧
  (∀ a f b, HasNeighbor m a f b → b ≠ pos → HasNeighbor m b f.opposite a) ∧
  (∀ a f, HasNeighbor m a f pos → HasNeighbor m pos f.opposite a ∨ f.opposite ∈ pend)

/-- The invariant inside `clearNeighbors` for the slot at `pos`: links between other
slots are answered, and a slot still linked towards `pos` is one `pos` links to through
a face not yet cleared (`done` lists the cleared faces). -/
def RemoveInv {D : Type} (pos : i32v3) (done : List Face) (m : ChunkSlotMap D) : Prop :=
  LinksAdjacent m ∧
  (∀ a f b, HasNeighbor m a f b → a ≠ pos → b ≠ pos → HasNeighbor m b f.opposite a) ∧
  (∀ a f, HasNeighbor m a f pos → HasNeighbor m pos f.opposite a ∧ f.opposite ∉ done)

/-- Three insertions in a row along x and the removal of the middle slot. -/
def sampleOps : List SlotOp :=
  [SlotOp.insert ⟨0, 0, 0⟩ (some 0) none, SlotOp.insert ⟨1, 0, 0⟩ (some 1) none,
   SlotOp.insert ⟨2, 0, 0⟩ (some 2) none, SlotOp.remove ⟨1, 0, 0⟩]

/-! ## Theorems on GenerateTask::execute -/

section GenerateTaskThms

variable {D V H G : Type}

/-- The statement-list reading of `execute` agrees with the function itself. -/
theorem runSteps_executeSteps (X : Collaborators D V H G) (t : GenerateTask D V H G) :
    runSteps X (executeSteps t) t = execute X t := by
  unfold executeSteps execute
  by_cases hl : t.query.chunk.gridData.isLoading = true
  · simp [hl, runSteps, Step.apply]
  · simp only [hl, if_false, Bool.false_eq_true]
    cases hq : t.query.genLevel <;> simp [switchSteps, runSteps, Step.apply]

/-- Claim C1. For a chunk-generation query (grid data not loading) whose requested
level is one of GEN_TERRAIN, GEN_FLORA, GEN_SCRIPT, GEN_DONE, the chunk's genLevel is
GEN_DONE after `GenerateTask::execute`, whatever it was before and whatever the
external generator wrote. -/
theorem execute_genLevel_done (X : Collaborators D V H G) (t : GenerateTask D V H G)
    (hload : t.query.chunk.gridData.isLoading = false)
    (hlevel : t.query.genLevel = ChunkGenLevel.GEN_TERRAIN ∨
      t.query.genLevel = ChunkGenLevel.GEN_FLORA ∨
      t.query.genLevel = ChunkGenLevel.GEN_SCRIPT ∨
      t.query.genLevel = ChunkGenLevel.GEN_DONE) :
    (execute X t).query.chunk.genLevel = ChunkGenLevel.GEN_DONE := by
  unfold execute
  simp only [hload, Bool.false_eq_true, if_false]
  rcases hlevel with h | h | h | h <;>
    simp [h, callFinishQuery, setAccessible, notifyOne, setFinished, setGenLevelDone]

/-- Claim C2. For a chunk-generation query (grid data not loading) the chunk's
isAccessible flag is true after `GenerateTask::execute`, for every prior value of the
flag and every requested generation level. -/
theorem execute_isAccessible (X : Collaborators D V H G) (t : GenerateTask D V H G)
    (hload : t.query.chunk.gridData.isLoading = false) :
    (execute X t).query.chunk.isAccessible = true := by
  unfold execute
  simp [hload, callFinishQuery, setAccessible]

/-- Claim C3, amended. The chunk is marked accessible exactly when the grid data is not
loading: the statement `chunk.isAccessible = true` runs and the flag is true afterwards,
while a heightmap run leaves the chunk as generateHeightmap returned it. A call of
`generateChunk` runs before the marking exactly when, in addition, the requested level
is GEN_TERRAIN or GEN_DONE: the generator is then applied to the chunk, the state just
before the marking holds the chunk it returned, and the marking is made on that chunk.
For GEN_FLORA and GEN_SCRIPT the chunk is marked accessible with no generator applied.
No call of `generateChunk` runs after the marking. -/
theorem setAccessible_and_generateChunk (X : Collaborators D V H G)
    (t : GenerateTask D V H G) :
    (Step.setAccessible ∈ executeSteps t ↔ t.query.chunk.gridData.isLoading = false) ∧
    (Step.callGenerateChunk ∈ stepsBefore Step.setAccessible (executeSteps t) ↔
      t.query.chunk.gridData.isLoading = false ∧
        (t.query.genLevel = ChunkGenLevel.GEN_TERRAIN ∨
          t.query.genLevel = ChunkGenLevel.GEN_DONE)) ∧
    Step.callGenerateChunk ∉ stepsAfter Step.setAccessible (executeSteps t) ∧
    runSteps X (executeSteps t) t = execute X t ∧
    (t.query.chunk.gridData.isLoading = false →
      (execute X t).query.chunk.isAccessible = true) ∧
    (t.query.chunk.gridData.isLoading = true →
      (execute X t).query.chunk
        = (X.generateHeightmap t.chunkGenerator t.query.chunk t.heightData).2.1) ∧
    (ExternalCall.generateChunk ∈ (execute X t).calls.drop t.calls.length ↔
      t.query.chunk.gridData.isLoading = false ∧
        (t.query.genLevel = ChunkGenLevel.GEN_TERRAIN ∨
          t.query.genLevel = ChunkGenLevel.GEN_DONE)) ∧
    (t.query.chunk.gridData.isLoading = false →
      (t.query.genLevel = ChunkGenLevel.GEN_TERRAIN ∨
        t.query.genLevel = ChunkGenLevel.GEN_DONE) →
      (runSteps X (stepsBefore Step.setAccessible (executeSteps t)) t).calls
        = t.calls ++ [ExternalCall.generateChunk] ∧
      (runSteps X (stepsBefore Step.setAccessible (executeSteps t)) t).query.chunk
        = { (X.generateChunk t.chunkGenerator t.query.chunk t.heightData).2.1 with
            genLevel := ChunkGenLevel.GEN_DONE } ∧
      (execute X t).query.chunk
        = { (X.generateChunk t.chunkGenerator t.query.chunk t.heightData).2.1 with
            genLevel := ChunkGenLevel.GEN_DONE, isAccessible := true } ∧
      (execute X t).heightData
        = (X.generateChunk t.chunkGenerator t.query.chunk t.heightData).2.2 ∧
      (execute X t).calls
        = t.calls ++ [ExternalCall.generateChunk, ExternalCall.finishQuery]) ∧
    (t.query.chunk.gridData.isLoading = false →
      (t.query.genLevel = ChunkGenLevel.GEN_FLORA ∨
        t.query.genLevel = ChunkGenLevel.GEN_SCRIPT) →
      (runSteps X (stepsBefore Step.setAccessible (executeSteps t)) t).calls = t.calls ∧
      (execute X t).query.chunk
        = { t.query.chunk with
            genLevel := ChunkGenLevel.GEN_DONE, isAccessible := true } ∧
      (execute X t).heightData = t.heightData ∧
      (execute X t).calls = t.calls ++ [ExternalCall.finishQuery]) := by
  refine ⟨?_, ?_, ?_, runSteps_executeSteps X t, ?_, ?_, ?_, ?_, ?_⟩
  · unfold executeSteps
    cases hl : t.query.chunk.gridData.isLoading
    · cases hq : t.query.genLevel <;> simp [switchSteps]
    · simp
  · unfold executeSteps
    cases hl : t.query.chunk.gridData.isLoading
    · cases hq : t.query.genLevel <;>
        simp [switchSteps, stepsBefore, List.takeWhile]
    · simp [stepsBefore, List.takeWhile]
  · unfold executeSteps
    cases hl : t.query.chunk.gridData.isLoading
    · cases hq : t.query.genLevel <;>
        simp [switchSteps, stepsAfter, List.dropWhile]
    · simp [stepsAfter, List.dropWhile]
  · intro hl
    simp [execute, hl, callFinishQuery, setAccessible]
  · intro hl
    simp [execute, hl, callFinishQuery, callGenerateHeightmap]
  · cases hl : t.query.chunk.gridData.isLoading
    · cases hq : t.query.genLevel <;>
        simp [execute, hl, hq, callFinishQuery, setAccessible, notifyOne, setFinished,
          setGenLevelDone, callGenerateChunk]
    · simp [execute, hl, callFinishQuery, callGenerateHeightmap]
  · intro hl hq
    rcases hq with hq | hq <;>
      simp [execute, executeSteps, switchSteps, stepsBefore, List.takeWhile, runSteps,
        Step.apply, hl, hq, callFinishQuery, setAccessible, notifyOne, setFinished,
        setGenLevelDone, callGenerateChunk]
  · intro hl hq
    rcases hq with hq | hq <;>
      simp [execute, executeSteps, switchSteps, stepsBefore, List.takeWhile, runSteps,
        Step.apply, hl, hq, callFinishQuery, setAccessible, notifyOne, setFinished,
        setGenLevelDone]

end GenerateTaskThms

/-- Witness of claim C1: a GEN_FLORA request on a chunk whose level was another one. -/
theorem execute_genLevel_done_witness :
    (sampleTask ChunkGenLevel.GEN_FLORA false).query.chunk.gridData.isLoading = false ∧
    (execute idleCollaborators (sampleTask ChunkGenLevel.GEN_FLORA false)).query.chunk.genLevel
      = ChunkGenLevel.GEN_DONE :=
  ⟨rfl, execute_genLevel_done idleCollaborators (sampleTask ChunkGenLevel.GEN_FLORA false) rfl
    (Or.inr (Or.inl rfl))⟩

/-- Witness of claim C2: a request at a level the switch passes over, on a chunk that
was not accessible. -/
theorem execute_isAccessible_witness :
    (sampleTask (ChunkGenLevel.GEN_OTHER 0) false).query.chunk.isAccessible = false ∧
    (execute idleCollaborators
      (sampleTask (ChunkGenLevel.GEN_OTHER 0) false)).query.chunk.isAccessible = true :=
  ⟨rfl, execute_isAccessible idleCollaborators (sampleTask (ChunkGenLevel.GEN_OTHER 0) false) rfl⟩

/-- Claim C3 as stated fails: for a GEN_FLORA request the chunk is marked accessible
although `generateChunk` was not called. -/
theorem accessible_without_generateChunk :
    ¬ AccessibleOnlyAfterGenerateChunk (sampleTask ChunkGenLevel.GEN_FLORA false) := by
  unfold AccessibleOnlyAfterGenerateChunk
  decide

/-- Claim C4 fails on the code. For a GEN_TERRAIN request on a chunk that is not yet
accessible, the execution passes through a state in which the query is finished and
its waiter notified while the chunk is still not accessible. -/
theorem finished_before_accessible :
    (∃ st ∈ executeTrace idleCollaborators (sampleTask ChunkGenLevel.GEN_TERRAIN false),
      st.query.m_isFinished = true ∧ st.query.m_cond = 1 ∧
        st.query.chunk.isAccessible = false) ∧
    ¬ FinishedOnlyWhenAccessible idleCollaborators
        (sampleTask ChunkGenLevel.GEN_TERRAIN false) := by
  unfold FinishedOnlyWhenAccessible
  decide

/-! ## Theorems on ChunkStates -/

/-- Claim C5. The enumerator values of `ChunkStates` follow the priority chain of the
specification: LOAD < GENERATE < SAVE < LIGHT < TREES < MESH < WATERMESH < DRAW, no two
states have the same value, and two states of the chain compare by enumerator value
exactly as they are ordered in the chain (the earlier, serviced first, is the lower). -/
theorem chunkStates_priority_chain :
    (ChunkStates.LOAD < ChunkStates.GENERATE ∧ ChunkStates.GENERATE < ChunkStates.SAVE ∧
      ChunkStates.SAVE < ChunkStates.LIGHT ∧ ChunkStates.LIGHT < ChunkStates.TREES ∧
      ChunkStates.TREES < ChunkStates.MESH ∧ ChunkStates.MESH < ChunkStates.WATERMESH ∧
      ChunkStates.WATERMESH < ChunkStates.DRAW) ∧
    specPriorityChain.map ChunkStates.toNat = [0, 1, 2, 3, 4, 5, 6, 7] ∧
    (∀ a b : ChunkStates, a.toNat = b.toNat → a = b) ∧
    (∀ a ∈ specPriorityChain, ∀ b ∈ specPriorityChain,
      a < b ↔ specPriorityChain.indexOf a < specPriorityChain.indexOf b) := by
  refine ⟨by decide, by decide, ?_, by decide⟩
  intro a b
  cases a <;> cases b <;> simp [ChunkStates.toNat]

/-- Claim C10. INACTIVE is the greatest value of `ChunkStates`: every state is at most
INACTIVE, INACTIVE is above DRAW, so INACTIVE passes the tests `state >= LIGHT` and
`state >= MESH`; the states that are at least MESH are exactly MESH, WATERMESH, DRAW
and INACTIVE. -/
theorem chunkStates_inactive_greatest :
    (∀ s : ChunkStates, s ≤ ChunkStates.INACTIVE) ∧
    ChunkStates.INACTIVE > ChunkStates.DRAW ∧
    ChunkStates.INACTIVE ≥ ChunkStates.LIGHT ∧
    ChunkStates.INACTIVE ≥ ChunkStates.MESH ∧
    (∀ s : ChunkStates, s ≥ ChunkStates.MESH ↔
      (s = ChunkStates.MESH ∨ s = ChunkStates.WATERMESH ∨ s = ChunkStates.DRAW ∨
        s = ChunkStates.INACTIVE)) := by
  refine ⟨?_, by decide, by decide, by decide, ?_⟩
  · intro s
    cases s <;> decide
  · intro s
    cases s <;> decide

/-! ## Theorems on ChunkGridData -/

/-- Claim C7. A newly constructed `ChunkGridData` has refCount exactly 1, hence a
positive one, for every voxel-map-data argument (which it stores), and element 0 of its
height data has height UNLOADED_HEIGHT; the other elements are not written. -/
theorem chunkGridData_construct_refCount (UNLOADED_HEIGHT : Int) (storage : List HeightData)
    (VoxelMapData : Option Nat) (hlayer : 0 < storage.length) :
    (ChunkGridData.construct UNLOADED_HEIGHT storage VoxelMapData).refCount = 1 ∧
    0 < (ChunkGridData.construct UNLOADED_HEIGHT storage VoxelMapData).refCount ∧
    (ChunkGridData.construct UNLOADED_HEIGHT storage VoxelMapData).voxelMapData
      = VoxelMapData ∧
    ((ChunkGridData.construct UNLOADED_HEIGHT storage VoxelMapData).heightData[0]?).map
      HeightData.height = some UNLOADED_HEIGHT ∧
    (ChunkGridData.construct UNLOADED_HEIGHT storage VoxelMapData).heightData.tail
      = storage.tail := by
  cases storage with
  | nil => simp at hlayer
  | cons h0 rest => simp [ChunkGridData.construct]

/-- Witness of claim C7: a two-element height array and UNLOADED_HEIGHT = -100000. -/
theorem chunkGridData_construct_refCount_witness :
    (ChunkGridData.construct (-100000) [⟨5⟩, ⟨9⟩] (some 2)).refCount = 1 ∧
    ((ChunkGridData.construct (-100000) [⟨5⟩, ⟨9⟩] (some 2)).heightData[0]?).map
      HeightData.height = some (-100000) :=
  have h := chunkGridData_construct_refCount (-100000) [⟨5⟩, ⟨9⟩] (some 2) (by decide)
  ⟨h.1, h.2.2.2.1⟩

/-! ## Theorems on ChunkSlot -/

/-- Claim C8. For a slot whose `chunk` pointer designates a chunk and every camera
position, `ChunkSlot::calculateDistance2` returns, and afterwards the slot's distance2
and its chunk's distance2 are equal, both being getDistance2(position, cameraPos); the
slot's position, chunk pointer, six neighbour links and numNeighbors are unchanged (as
are its other fields, the chunk's other fields and the other chunks). -/
theorem calculateDistance2_caches {D V : Type} (getDistance2 : i32v3 → i32v3 → D)
    (chunks : ChunkStore D V) (slot : ChunkSlot D) (cameraPos : i32v3) (c : Nat)
    (ch : Chunk D V) (hc : slot.chunk = some c) (hch : chunks c = some ch) :
    ∃ slot1 chunks1 ch1,
      slot.calculateDistance2 getDistance2 chunks cameraPos = some (slot1, chunks1) ∧
      chunks1 c = some ch1 ∧
      slot1.distance2 = getDistance2 slot.position cameraPos ∧
      ch1.distance2 = getDistance2 slot.position cameraPos ∧
      slot1.distance2 = ch1.distance2 ∧
      slot1.position = slot.position ∧ slot1.chunk = slot.chunk ∧
      slot1.left = slot.left ∧ slot1.right = slot.right ∧ slot1.front = slot.front ∧
      slot1.back = slot.back ∧ slot1.top = slot.top ∧ slot1.bottom = slot.bottom ∧
      slot1.numNeighbors = slot.numNeighbors ∧
      slot1.chunkGridData = slot.chunkGridData ∧ slot1.inFrustum = slot.inFrustum ∧
      ch1 = { ch with distance2 := getDistance2 slot.position cameraPos } ∧
      (∀ k, k ≠ c → chunks1 k = chunks k) := by
  refine ⟨{ slot with distance2 := getDistance2 slot.position cameraPos },
    Function.update chunks c (some { ch with distance2 := getDistance2 slot.position cameraPos }),
    { ch with distance2 := getDistance2 slot.position cameraPos }, ?_⟩
  refine ⟨?_, by simp, rfl, rfl, rfl, rfl, rfl, rfl, rfl, rfl, rfl, rfl, rfl, rfl, rfl, rfl,
    rfl, ?_⟩
  · simp [ChunkSlot.calculateDistance2, hc, hch]
  · intro k hk
    simp [Function.update, hk]

/-- Witness of claim C8: the sample slot seen from the camera position (0, 0, 0). -/
theorem calculateDistance2_caches_witness :
    sampleSlot.chunk = some 7 ∧
    ∃ slot1 chunks1 ch1,
      sampleSlot.calculateDistance2 sampleDistance2 sampleChunkStore ⟨0, 0, 0⟩
        = some (slot1, chunks1) ∧
      chunks1 7 = some ch1 ∧ slot1.distance2 = 5120 ∧ ch1.distance2 = 5120 ∧
      slot1.left = some ⟨0, 0, -64⟩ ∧ slot1.numNeighbors = 1 := by
  obtain ⟨slot1, chunks1, ch1, h1, h2, h3, h4, -, -, -, h5, -, -, -, -, -, h6, -⟩ :=
    calculateDistance2_caches sampleDistance2 sampleChunkStore sampleSlot ⟨0, 0, 0⟩ 7
      { genLevel := ChunkGenLevel.GEN_DONE, isAccessible := true,
        gridData := { isLoading := false }, distance2 := 0, voxels := () } rfl rfl
  exact ⟨rfl, slot1, chunks1, ch1, h1, h2, h3.trans (by decide), h4.trans (by decide),
    h5.trans rfl, h6.trans rfl⟩

/-! ## Theorems on the slot map -/

/-- The model links and unlinks: after the first three sample operations the middle
slot is linked on both sides and its neighbours link back; after the removal of the
middle slot the two remaining slots have no link. -/
theorem sampleOps_links :
    ((applyOps () (sampleOps.take 3) (ChunkSlotMap.empty Unit) ⟨1, 0, 0⟩).map
        (fun s => (s.left, s.right)) = some (some ⟨0, 0, 0⟩, some ⟨2, 0, 0⟩)) ∧
    ((applyOps () (sampleOps.take 3) (ChunkSlotMap.empty Unit) ⟨0, 0, 0⟩).map
        (fun s => (s.left, s.right)) = some (none, some ⟨1, 0, 0⟩)) ∧
    ((applyOps () (sampleOps.take 3) (ChunkSlotMap.empty Unit) ⟨2, 0, 0⟩).map
        (fun s => (s.left, s.right)) = some (some ⟨1, 0, 0⟩, none)) ∧
    ((applyOps () sampleOps (ChunkSlotMap.empty Unit) ⟨0, 0, 0⟩).map
        (fun s => (s.left, s.right)) = some (none, none)) ∧
    ((applyOps () sampleOps (ChunkSlotMap.empty Unit) ⟨2, 0, 0⟩).map
        (fun s => (s.left, s.right)) = some (none, none)) ∧
    (applyOps () sampleOps (ChunkSlotMap.empty Unit) ⟨1, 0, 0⟩).isNone = true := by
  decide

/-! ### Faces and offsets -/

theorem i32v3.add_def (a b : i32v3) : a + b = ⟨a.x + b.x, a.y + b.y, a.z + b.z⟩ := rfl

theorem Face.opposite_opposite (f : Face) : f.opposite.opposite = f := by
  cases f <;> rfl

theorem Face.opposite_eq_iff {f g : Face} : f.opposite = g ↔ f = g.opposite := by
  cases f <;> cases g <;> decide

theorem Face.mem_all (f : Face) : f ∈ Face.all := by
  cases f <;> decide

theorem add_offset_ne_self (p : i32v3) (f : Face) : p + f.offset ≠ p := by
  intro h
  have hx := congrArg i32v3.x h
  have hy := congrArg i32v3.y h
  have hz := congrArg i32v3.z h
  cases f <;> simp only [i32v3.add_def, Face.offset] at hx hy hz <;> omega

theorem add_offset_cancel {a p : i32v3} {f : Face} (h : a + f.offset = p + f.offset) :
    a = p := by
  have hx := congrArg i32v3.x h
  have hy := congrArg i32v3.y h
  have hz := congrArg i32v3.z h
  simp only [i32v3.add_def] at hx hy hz
  ext <;> omega

theorem add_offset_opposite (p : i32v3) (f : Face) :
    p + f.offset + f.opposite.offset = p := by
  cases f <;> simp only [i32v3.add_def, Face.offset, Face.opposite] <;> ext <;> simp

theorem eq_add_opposite {a b : i32v3} {f : Face} (h : b = a + f.offset) :
    a = b + f.opposite.offset := by
  rw [h, add_offset_opposite]

theorem ChunkSlot.link_setLink {D : Type} (s : ChunkSlot D) (g f : Face)
    (v : Option i32v3) : (s.setLink g v).link f = if f = g then v else s.link f := by
  cases g <;> cases f <;> simp [ChunkSlot.link, ChunkSlot.setLink]

theorem ChunkSlot.link_construct {D : Type} (one : D) (pos : i32v3) (ch cgd : Option Nat)
    (f : Face) : (ChunkSlot.construct one pos ch cgd).link f = none := by
  cases f <;> rfl

/-! ### The neighbour relation under updates of the map -/

section SlotMapLemmas

variable {D : Type}

theorem hasNeighbor_update (m : ChunkSlotMap D) (k : i32v3) (v : Option (ChunkSlot D))
    (a : i32v3) (f : Face) (b : i32v3) :
    HasNeighbor (Function.update m k v) a f b ↔
      (a = k ∧ ∃ s, v = some s ∧ s.link f = some b) ∨ (a ≠ k ∧ HasNeighbor m a f b) := by
  unfold HasNeighbor
  by_cases h : a = k
  · subst h
    simp
  · simp [Function.update_noteq h, h]

/-- The neighbour relation after one face has been linked. -/
theorem hasNeighbor_linked (m : ChunkSlotMap D) (p : i32v3) (g : Face)
    (s n : ChunkSlot D) (hs : m p = some s) (hn : m (p + g.offset) = some n)
    (a : i32v3) (f : Face) (b : i32v3) :
    HasNeighbor (linkFace p m g) a f b ↔
      (a = p ∧ f = g ∧ b = p + g.offset) ∨
      (a = p + g.offset ∧ f = g.opposite ∧ b = p) ∨
      (HasNeighbor m a f b ∧ ¬ (a = p ∧ f = g) ∧ ¬ (a = p + g.offset ∧ f = g.opposite)) := by
  have hqp : p + g.offset ≠ p := add_offset_ne_self p g
  unfold linkFace
  simp only [hs, hn]
  rw [hasNeighbor_update]
  by_cases haq : a = p + g.offset
  · subst haq
    have hm : HasNeighbor m (p + g.offset) f b ↔ n.link f = some b := by
      unfold HasNeighbor; simp [hn]
    by_cases hf : f = g.opposite
    · subst hf
      simp [ChunkSlot.link_setLink, hqp, eq_comm]
    · simp [ChunkSlot.link_setLink, hqp, hf, hm]
  · rw [hasNeighbor_update]
    by_cases hap : a = p
    · subst hap
      have hm : HasNeighbor m a f b ↔ s.link f = some b := by
        unfold HasNeighbor; simp [hs]
      by_cases hf : f = g
      · subst hf
        simp [ChunkSlot.link_setLink, haq, eq_comm]
      · simp [ChunkSlot.link_setLink, haq, hf, hm]
    · simp [haq, hap]

/-- The neighbour relation after one face has been unlinked. -/
theorem hasNeighbor_unlinked (m : ChunkSlotMap D) (q : i32v3) (g : Face) (n : ChunkSlot D)
    (hn : m q = some n) (a : i32v3) (f : Face) (b : i32v3) :
    HasNeighbor (Function.update m q (some (n.setLink g.opposite none))) a f b ↔
      HasNeighbor m a f b ∧ ¬ (a = q ∧ f = g.opposite) := by
  rw [hasNeighbor_update]
  by_cases haq : a = q
  · subst haq
    have hm : HasNeighbor m a f b ↔ n.link f = some b := by
      unfold HasNeighbor; simp [hn]
    by_cases hf : f = g.opposite
    · simp [ChunkSlot.link_setLink, hf]
    · simp [ChunkSlot.link_setLink, hf, hm]
  · simp [haq]

end SlotMapLemmas

/-! ### detectNeighbors keeps the invariant -/

section SlotMapInvariant

variable {D : Type}

theorem linkFace_insertInv (p : i32v3) (g : Face) (pend : List Face) (m : ChunkSlotMap D)
    (h : InsertInv p (g :: pend) m) : InsertInv p pend (linkFace p m g) := by
  obtain ⟨hadj, hp, hsym, hpend⟩ := h
  have hqp : p + g.offset ≠ p := add_offset_ne_self p g
  cases hs : m p with
  | none => simp [hs] at hp
  | some s =>
    cases hn : m (p + g.offset) with
    | none =>
      have hm : linkFace p m g = m := by unfold linkFace; simp [hs, hn]
      rw [hm]
      refine ⟨hadj, hp, hsym, ?_⟩
      intro a f hab
      rcases hpend a f hab with h1 | h1
      · exact Or.inl h1
      · rcases List.mem_cons.1 h1 with h2 | h2
        · exfalso
          have ha : a = p + f.opposite.offset := eq_add_opposite (hadj a f p hab)
          obtain ⟨sa, hsa, -⟩ := hab
          rw [ha, h2, hn] at hsa
          cases hsa
        · exact Or.inr h2
    | some n =>
      have hchar := hasNeighbor_linked m p g s n hs hn
      refine ⟨?_, ?_, ?_, ?_⟩
      · intro a f b hab
        rcases (hchar a f b).1 hab with ⟨ha, hf, hb⟩ | ⟨ha, hf, hb⟩ | ⟨hold, -, -⟩
        · rw [ha, hf, hb]
        · rw [ha, hf, hb, add_offset_opposite]
        · exact hadj a f b hold
      · unfold linkFace
        simp [hs, hn, Function.update_noteq hqp.symm]
      · intro a f b hab hbp
        rcases (hchar a f b).1 hab with ⟨ha, hf, hb⟩ | ⟨ha, hf, hb⟩ | ⟨hold, hn1, hn2⟩
        · rw [ha, hf, hb]
          exact (hchar _ _ _).2 (Or.inr (Or.inl ⟨rfl, rfl, rfl⟩))
        · exact absurd hb hbp
        · refine (hchar _ _ _).2 (Or.inr (Or.inr ⟨hsym a f b hold hbp, ?_, ?_⟩))
          · exact fun hc => hbp hc.1
          · rintro ⟨hbq, hfg⟩
            have hf : f = g := by
              have := congrArg Face.opposite hfg
              simpa [Face.opposite_opposite] using this
            have hb := hadj a f b hold
            rw [hbq, hf] at hb
            exact hn1 ⟨(add_offset_cancel hb).symm, hf⟩
      · intro a f hab
        rcases (hchar a f p).1 hab with ⟨-, -, hb⟩ | ⟨ha, hf, -⟩ | ⟨hold, hn1, hn2⟩
        · exact absurd hb.symm hqp
        · left
          rw [ha, hf, Face.opposite_opposite]
          exact (hchar _ _ _).2 (Or.inl ⟨rfl, rfl, rfl⟩)
        · have haq : f.opposite = g → a = p + g.offset ∧ f = g.opposite := by
            intro hfg
            have ha : a = p + f.opposite.offset := eq_add_opposite (hadj a f p hold)
            rw [hfg] at ha
            exact ⟨ha, Face.opposite_eq_iff.1 hfg⟩
          rcases hpend a f hold with h1 | h1
          · left
            refine (hchar _ _ _).2 (Or.inr (Or.inr ⟨h1, ?_, ?_⟩))
            · exact fun hc => hn2 (haq hc.2)
            · exact fun hc => hqp hc.1.symm
          · rcases List.mem_cons.1 h1 with h2 | h2
            · exact absurd (haq h2) hn2
            · exact Or.inr h2

theorem foldl_linkFace_insertInv (p : i32v3) (fs pend : List Face) (m : ChunkSlotMap D)
    (h : InsertInv p (fs ++ pend) m) : InsertInv p pend (fs.foldl (linkFace p) m) := by
  induction fs generalizing m with
  | nil => simpa using h
  | cons g fs ih =>
    rw [List.foldl_cons]
    exact ih _ (linkFace_insertInv p g (fs ++ pend) m (by simpa using h))

theorem insertInv_of_slotInv (one : D) (p : i32v3) (ch cgd : Option Nat)
    (m : ChunkSlotMap D) (h : SlotInv m) :
    InsertInv p (Face.all ++ [])
      (Function.update m p (some (ChunkSlot.construct one p ch cgd))) := by
  obtain ⟨hadj, hsym⟩ := h
  have hchar : ∀ a f b,
      HasNeighbor (Function.update m p (some (ChunkSlot.construct one p ch cgd))) a f b ↔
        a ≠ p ∧ HasNeighbor m a f b := by
    intro a f b
    rw [hasNeighbor_update]
    simp [ChunkSlot.link_construct]
  refine ⟨?_, by simp, ?_, ?_⟩
  · intro a f b hab
    exact hadj a f b ((hchar a f b).1 hab).2
  · intro a f b hab hbp
    exact (hchar _ _ _).2 ⟨hbp, hsym a f b ((hchar a f b).1 hab).2⟩
  · intro a f _
    exact Or.inr (by simpa using Face.mem_all f.opposite)

theorem slotInv_of_insertInv (p : i32v3) (m : ChunkSlotMap D) (h : InsertInv p [] m) :
    SlotInv m := by
  obtain ⟨hadj, -, hsym, hpend⟩ := h
  refine ⟨hadj, ?_⟩
  intro a f b hab
  by_cases hbp : b = p
  · subst hbp
    rcases hpend a f hab with h1 | h1
    · exact h1
    · simp at h1
  · exact hsym a f b hab hbp

theorem insert_slotInv (one : D) (p : i32v3) (ch cgd : Option Nat) (m : ChunkSlotMap D)
    (h : SlotInv m) : SlotInv (ChunkSlotMap.insert one p ch cgd m) :=
  slotInv_of_insertInv p _
    (foldl_linkFace_insertInv p Face.all [] _ (insertInv_of_slotInv one p ch cgd m h))

end SlotMapInvariant

/-! ### clearNeighbors and removal keep the invariant -/

section SlotMapRemoval

variable {D : Type}

theorem unlinkFace_removeInv (p : i32v3) (g : Face) (done : List Face) (m : ChunkSlotMap D)
    (h : RemoveInv p done m) : RemoveInv p (g :: done) (unlinkFace p m g) := by
  obtain ⟨hadj, hsym, hback⟩ := h
  -- when nothing is written, the face `g` carries no link towards `p`
  have hidle : (∀ a, ¬ HasNeighbor m p g a) → RemoveInv p (g :: done) m := by
    intro hno
    refine ⟨hadj, hsym, ?_⟩
    intro a f hab
    obtain ⟨h1, h2⟩ := hback a f hab
    refine ⟨h1, ?_⟩
    intro hmem
    rcases List.mem_cons.1 hmem with h3 | h3
    · rw [h3] at h1
      exact hno a h1
    · exact h2 h3
  cases hs : m p with
  | none =>
    have hm : unlinkFace p m g = m := by unfold unlinkFace; simp [hs]
    rw [hm]
    apply hidle
    rintro a ⟨s, hs1, -⟩
    rw [hs] at hs1
    cases hs1
  | some s =>
    cases hl : s.link g with
    | none =>
      have hm : unlinkFace p m g = m := by unfold unlinkFace; simp [hs, hl]
      rw [hm]
      apply hidle
      rintro a ⟨s1, hs1, hl1⟩
      rw [hs] at hs1
      cases hs1
      rw [hl] at hl1
      cases hl1
    | some q =>
      have hpq : HasNeighbor m p g q := ⟨s, hs, hl⟩
      have hq : q = p + g.offset := hadj p g q hpq
      have hqp : q ≠ p := by rw [hq]; exact add_offset_ne_self p g
      cases hn : m q with
      | none =>
        have hm : unlinkFace p m g = m := by unfold unlinkFace; simp [hs, hl, hn]
        rw [hm]
        refine ⟨hadj, hsym, ?_⟩
        intro a f hab
        obtain ⟨h1, h2⟩ := hback a f hab
        refine ⟨h1, ?_⟩
        intro hmem
        rcases List.mem_cons.1 hmem with h3 | h3
        · rw [h3] at h1
          obtain ⟨s1, hs1, hl1⟩ := h1
          rw [hs] at hs1
          cases hs1
          rw [hl] at hl1
          cases hl1
          obtain ⟨sa, hsa, -⟩ := hab
          rw [hn] at hsa
          cases hsa
        · exact h2 h3
      | some n =>
        have hm : unlinkFace p m g
            = Function.update m q (some (n.setLink g.opposite none)) := by
          unfold unlinkFace; simp [hs, hl, hn]
        rw [hm]
        have hchar := hasNeighbor_unlinked m q g n hn
        refine ⟨?_, ?_, ?_⟩
        · intro a f b hab
          exact hadj a f b ((hchar a f b).1 hab).1
        · intro a f b hab hap hbp
          obtain ⟨hold, -⟩ := (hchar a f b).1 hab
          refine (hchar _ _ _).2 ⟨hsym a f b hold hap hbp, ?_⟩
          rintro ⟨hbq, hfg⟩
          have hf : f = g := by
            have := congrArg Face.opposite hfg
            simpa [Face.opposite_opposite] using this
          have hb := hadj a f b hold
          rw [hbq, hf, hq] at hb
          exact hap (add_offset_cancel hb).symm
        · intro a f hab
          obtain ⟨hold, hneg⟩ := (hchar a f p).1 hab
          obtain ⟨h1, h2⟩ := hback a f hold
          refine ⟨(hchar _ _ _).2 ⟨h1, fun hc => hqp hc.1.symm⟩, ?_⟩
          intro hmem
          rcases List.mem_cons.1 hmem with h3 | h3
          · apply hneg
            refine ⟨?_, Face.opposite_eq_iff.1 h3⟩
            rw [h3] at h1
            obtain ⟨s1, hs1, hl1⟩ := h1
            rw [hs] at hs1
            cases hs1
            rw [hl] at hl1
            cases hl1
            rfl
          · exact h2 h3

theorem foldl_unlinkFace_removeInv (p : i32v3) (fs done : List Face) (m : ChunkSlotMap D)
    (h : RemoveInv p done m) :
    RemoveInv p (fs.reverse ++ done) (fs.foldl (unlinkFace p) m) := by
  induction fs generalizing m done with
  | nil => simpa using h
  | cons g fs ih =>
    rw [List.foldl_cons]
    have := ih (g :: done) _ (unlinkFace_removeInv p g done m h)
    simpa using this

theorem remove_slotInv (p : i32v3) (m : ChunkSlotMap D) (h : SlotInv m) :
    SlotInv (ChunkSlotMap.remove p m) := by
  have h0 : RemoveInv p [] m := by
    obtain ⟨hadj, hsym⟩ := h
    exact ⟨hadj, fun a f b hab _ _ => hsym a f b hab,
      fun a f hab => ⟨hsym a f p hab, by simp⟩⟩
  obtain ⟨hadj, hsym, hback⟩ := foldl_unlinkFace_removeInv p Face.all [] m h0
  have hchar : ∀ a f b,
      HasNeighbor (ChunkSlotMap.remove p m) a f b ↔
        a ≠ p ∧ HasNeighbor (ChunkSlot.clearNeighbors p m) a f b := by
    intro a f b
    unfold ChunkSlotMap.remove
    rw [hasNeighbor_update]
    simp
  have hnone : ∀ a f, ¬ HasNeighbor (ChunkSlot.clearNeighbors p m) a f p := by
    intro a f hab
    have := (hback a f hab).2
    exact this (by simpa using Face.mem_all f.opposite)
  refine ⟨?_, ?_⟩
  · intro a f b hab
    exact hadj a f b ((hchar a f b).1 hab).2
  · intro a f b hab
    obtain ⟨hap, hold⟩ := (hchar a f b).1 hab
    have hbp : b ≠ p := by
      rintro rfl
      exact hnone a f hold
    exact (hchar _ _ _).2 ⟨hbp, hsym a f b hold hap hbp⟩

theorem slotInv_empty : SlotInv (ChunkSlotMap.empty D) := by
  refine ⟨?_, ?_⟩ <;>
  · rintro a f b ⟨s, hs, -⟩
    simp [ChunkSlotMap.empty] at hs

theorem applyOps_slotInv (one : D) (ops : List SlotOp) (m : ChunkSlotMap D)
    (h : SlotInv m) : SlotInv (applyOps one ops m) := by
  unfold applyOps
  induction ops generalizing m with
  | nil => exact h
  | cons op ops ih =>
    rw [List.foldl_cons]
    apply ih
    cases op with
    | insert pos ch cgd => exact insert_slotInv one pos ch cgd m h
    | remove pos => exact remove_slotInv pos m h

theorem neighborSymmetric_of_slotInv (m : ChunkSlotMap D) (h : SlotInv m) :
    NeighborSymmetric m := by
  intro a f b
  refine ⟨h.2 a f b, ?_⟩
  intro hba
  have := h.2 b f.opposite a hba
  rwa [Face.opposite_opposite] at this

/-- Claim C6. For every sequence of slot insertions (construction followed by
detectNeighbors) and removals (clearNeighbors, then the slot leaves the map) applied to
the empty slot map, the neighbour relation is symmetric after every operation: after
each initial part of the sequence, slot A has B as its neighbour across a face exactly
when B has A as its neighbour across the opposite face. -/
theorem neighbor_relation_symmetric (one : D) (ops : List SlotOp) (k : Nat) :
    NeighborSymmetric (applyOps one (ops.take k) (ChunkSlotMap.empty D)) :=
  neighborSymmetric_of_slotInv _ (applyOps_slotInv one (ops.take k) _ slotInv_empty)

end SlotMapRemoval

/-! ## Theorems on the constructor of ChunkSlot -/

/-- Claim C11. A newly constructed `ChunkSlot` has its six neighbour links left, right,
back, front, bottom and top null and numNeighbors = 0, so numNeighbors is the number of
its non-null links; it takes part in no neighbour relation: it has no neighbour across
any face, and stored alone in a map it leaves the relation empty. Its chunk, position
and chunkGridData are the constructor arguments and inFrustum is false. -/
theorem chunkSlot_construct_unlinked {D : Type} (one : D) (pos : i32v3)
    (ch cgd : Option Nat) :
    (ChunkSlot.construct one pos ch cgd).left = none ∧
    (ChunkSlot.construct one pos ch cgd).right = none ∧
    (ChunkSlot.construct one pos ch cgd).back = none ∧
    (ChunkSlot.construct one pos ch cgd).front = none ∧
    (ChunkSlot.construct one pos ch cgd).bottom = none ∧
    (ChunkSlot.construct one pos ch cgd).top = none ∧
    (ChunkSlot.construct one pos ch cgd).numNeighbors = 0 ∧
    (ChunkSlot.construct one pos ch cgd).numNeighbors
      = ((ChunkSlot.construct one pos ch cgd).linkCount : Int) ∧
    (∀ f, (ChunkSlot.construct one pos ch cgd).link f = none) ∧
    (∀ (m : ChunkSlotMap D) f b,
      ¬ HasNeighbor (Function.update m pos (some (ChunkSlot.construct one pos ch cgd)))
        pos f b) ∧
    (∀ a f b,
      ¬ HasNeighbor
        (Function.update (ChunkSlotMap.empty D) pos
          (some (ChunkSlot.construct one pos ch cgd))) a f b) ∧
    (ChunkSlot.construct one pos ch cgd).chunk = ch ∧
    (ChunkSlot.construct one pos ch cgd).position = pos ∧
    (ChunkSlot.construct one pos ch cgd).chunkGridData = cgd ∧
    (ChunkSlot.construct one pos ch cgd).inFrustum = false := by
  have hlink : ∀ f, (ChunkSlot.construct one pos ch cgd).link f = none :=
    ChunkSlot.link_construct one pos ch cgd
  refine ⟨rfl, rfl, rfl, rfl, rfl, rfl, rfl, ?_, hlink, ?_, ?_, rfl, rfl, rfl, rfl⟩
  · have hcount : (ChunkSlot.construct one pos ch cgd).linkCount = 0 := by
      unfold ChunkSlot.linkCount
      simp [hlink]
    rw [hcount]
    rfl
  · intro m f b h
    rw [hasNeighbor_update] at h
    simp [hlink] at h
  · intro a f b h
    rw [hasNeighbor_update] at h
    rcases h with ⟨-, s1, hs1, hl⟩ | ⟨-, s1, hs1, -⟩
    · cases hs1
      rw [hlink] at hl
      cases hl
    · simp [ChunkSlotMap.empty] at hs1

end SoA
